import Mathlib

/-!
Verification of the CPU temperature model (`cpu_temperature_model.py`).

The numeric code is embedded shallowly over the real numbers `ℝ`: the
module-level physical parameters become constants, the power profiles and the
ODE right-hand side become functions `ℝ → ℝ`, `np.linspace` becomes an explicit
list of sample times, and `solve_scenario` returns its pair of arrays wrapped
in `Option` (a Python exception would be `none`; the function never raises, so
the result is always `some`).
-/

set_option maxRecDepth 8192

namespace CpuTempModel

/-- Heat capacity `C = 50` (J/°C), module-level physical parameter. -/
def C : ℝ := 50

/-- Thermal conductivity `k = 5` (W/°C), module-level physical parameter. -/
def k : ℝ := 5

/-- Room (ambient) temperature `T_env = 25` (°C), module-level parameter. -/
def T_env : ℝ := 25

/-- Initial CPU temperature `T0 = 25` (°C), module-level parameter. -/
def T0 : ℝ := 25

/-- Power scenario `power_idle(t)`: constant low power, 10 W for every `t`. -/
def power_idle (_t : ℝ) : ℝ := 10

/-- Power scenario `power_step(t)`: 10 W for `t < 5`, 80 W at and after `t = 5`. -/
noncomputable def power_step (t : ℝ) : ℝ :=
  if t < 5 then 10 else 80

/-- Power scenario `power_periodic(t) = 45 + 35·sin(ω·t)` with `ω = 2π/20`
(period 20 s). -/
noncomputable def power_periodic (t : ℝ) : ℝ :=
  let omega := 2 * Real.pi / 20
  45 + 35 * Real.sin (omega * t)

/-- `cpu_ode(T, t, power_func)`: the ODE right-hand side
`dT/dt = (P(t) − k·(T − T_env)) / C`. -/
noncomputable def cpu_ode (T t : ℝ) (power_func : ℝ → ℝ) : ℝ :=
  let P := power_func t
  let heat_loss := k * (T - T_env)
  (P - heat_loss) / C

/-- `analytical_solution(t, T0, P_const)`: the exact constant-power solution
`T_steady + (T0 − T_steady)·exp(−t/τ)` with `τ = C/k` and
`T_steady = T_env + P_const/k`.  The parameter `T0` shadows the module
constant, exactly as in the source. -/
noncomputable def analytical_solution (t T0 P_const : ℝ) : ℝ :=
  let tau := C / k
  let T_steady := T_env + P_const / k
  T_steady + (T0 - T_steady) * Real.exp (-t / tau)

/-- `np.linspace(a, b, n)`: `n` samples evenly spaced from `a` to `b`,
both endpoints included; sample `i` is `a + i·(b − a)/(n − 1)`. -/
noncomputable def linspace (a b : ℝ) (n : ℕ) : List ℝ :=
  (List.range n).map (fun i : ℕ => a + (i : ℝ) * ((b - a) / ((n : ℝ) - 1)))

/-- Helper for `odeint`: marches the state forward through the remaining
sample times, emitting one value per time (the current state first). -/
def odeintGo (f : ℝ → ℝ → ℝ) : ℝ → ℝ → List ℝ → List ℝ
  | y, _t, [] => [y]
  | y, t, s :: rest => y :: odeintGo f (y + (s - t) * f y t) s rest

/-- Model of `scipy.integrate.odeint` (library code, not part of this
repository), faithful to its interface: given a derivative function `f(y, t)`,
an initial value `y0` and a list of sample times, it returns one state value
per sample time, and the first returned value is exactly `y0`.  Interior
values are advanced by an explicit fixed-step scheme standing in for the
library solver; no claim below depends on the interior values. -/
def odeint (f : ℝ → ℝ → ℝ) (y0 : ℝ) (ts : List ℝ) : List ℝ :=
  match ts with
  | [] => []
  | t0 :: rest => odeintGo f y0 t0 rest

/-- `solve_scenario(power_func, t_span, label)`: builds the 500-point
`linspace` grid over `t_span`, solves the ODE with initial value the module
constant `T0`, and returns the time and temperature arrays.  The `label`
argument is accepted and ignored, as in the source.  A raised Python
exception would be `none`; the body performs no validation and always
returns `some`. -/
noncomputable def solve_scenario (power_func : ℝ → ℝ) (t_span : ℝ × ℝ)
    (label : String) : Option (List ℝ × List ℝ) :=
  let t := linspace t_span.1 t_span.2 500
  let T := odeint (fun y s => cpu_ode y s power_func) T0 t
  some (t, T)

/-- Derived characteristic printed by `print_analysis`: time constant
`τ = C/k`. -/
noncomputable def tau : ℝ := C / k

/-- Derived characteristic printed by `print_analysis`: idle steady state
`T_env + power_idle(0)/k`. -/
noncomputable def T_steady_idle : ℝ := T_env + power_idle 0 / k

/-- Derived characteristic printed by `print_analysis`: full-load steady state
`T_env + 80/k`. -/
noncomputable def T_steady_load : ℝ := T_env + 80 / k

/- Shared helper lemmas. -/

/-- Unfolding equation for `cpu_ode`. -/
theorem cpu_ode_eq (T t : ℝ) (power_func : ℝ → ℝ) :
    cpu_ode T t power_func = (power_func t - k * (T - T_env)) / C := rfl

/-- Unfolding equation for `analytical_solution`. -/
theorem analytical_solution_eq (t T0 P_const : ℝ) :
    analytical_solution t T0 P_const =
      (T_env + P_const / k) +
        (T0 - (T_env + P_const / k)) * Real.exp (-t / (C / k)) := rfl

/-- `linspace` always produces exactly `n` samples. -/
theorem linspace_length (a b : ℝ) (n : ℕ) : (linspace a b n).length = n := by
  simp only [linspace, List.length_map, List.length_range]

/-- Sample `i` of `linspace a b n` is `a + i·(b − a)/(n − 1)`. -/
theorem linspace_getElem (a b : ℝ) (n i : ℕ) (hi : i < n) :
    (linspace a b n)[i]? = some (a + i * ((b - a) / ((n : ℝ) - 1))) := by
  rw [linspace, List.getElem?_map, List.getElem?_range hi, Option.map_some']

/-- `odeintGo` produces one value per remaining time, plus the current one. -/
theorem odeintGo_length (f : ℝ → ℝ → ℝ) (y t : ℝ) (ts : List ℝ) :
    (odeintGo f y t ts).length = ts.length + 1 := by
  induction ts generalizing y t with
  | nil => rfl
  | cons s rest ih => simp [odeintGo, ih]

/-- `odeint` produces exactly one value per sample time. -/
theorem odeint_length (f : ℝ → ℝ → ℝ) (y0 : ℝ) (ts : List ℝ) :
    (odeint f y0 ts).length = ts.length := by
  cases ts with
  | nil => rfl
  | cons t rest => simp [odeint, odeintGo_length]

/-- The first value `odeintGo` emits is the current state. -/
theorem odeintGo_head (f : ℝ → ℝ → ℝ) (y t : ℝ) (ts : List ℝ) :
    (odeintGo f y t ts).head? = some y := by
  cases ts <;> rfl

/-- The first value of `odeint` on a nonempty time grid is the initial value. -/
theorem odeint_head (f : ℝ → ℝ → ℝ) (y0 : ℝ) (ts : List ℝ) (h : ts ≠ []) :
    (odeint f y0 ts).head? = some y0 := by
  cases ts with
  | nil => exact absurd rfl h
  | cons t rest => exact odeintGo_head f y0 t rest

/-- The first sample of a nonempty `linspace` is the left endpoint. -/
theorem linspace_head (a b : ℝ) (n : ℕ) (hn : 0 < n) :
    (linspace a b n).head? = some a := by
  rw [linspace, List.head?_eq_getElem?, List.getElem?_map,
    List.getElem?_range hn, Option.map_some']
  norm_num

/-- The last sample of `linspace a b n` with `n ≥ 2` is the right endpoint. -/
theorem linspace_getLast (a b : ℝ) (n : ℕ) (hn : 2 ≤ n) :
    (linspace a b n).getLast? = some b := by
  rw [List.getLast?_eq_getElem?, linspace_length,
    linspace_getElem a b n (n - 1) (by omega)]
  have hcast : ((n - 1 : ℕ) : ℝ) = (n : ℝ) - 1 := by
    push_cast [Nat.cast_sub (by omega : 1 ≤ n)]
    ring
  have hnz : (n : ℝ) - 1 ≠ 0 := by
    have h2 : (2 : ℝ) ≤ (n : ℝ) := by exact_mod_cast hn
    linarith
  rw [hcast]
  congr 1
  field_simp

/-- `linspace` is strictly increasing whenever `a < b`. -/
theorem linspace_pairwise (a b : ℝ) (n : ℕ) (hab : a < b) :
    List.Pairwise (· < ·) (linspace a b n) := by
  rcases Nat.lt_or_ge n 2 with hn | hn
  · interval_cases n
    · simp [linspace]
    · simp [linspace]
  · rw [linspace, List.pairwise_map]
    refine (List.pairwise_lt_range n).imp ?_
    intro i j hij
    have hd : 0 < (b - a) / ((n : ℝ) - 1) := by
      apply div_pos (by linarith)
      have h2 : (2 : ℝ) ≤ (n : ℝ) := by exact_mod_cast hn
      linarith
    have hij' : (i : ℝ) < (j : ℝ) := by exact_mod_cast hij
    nlinarith

/- Claim theorems. -/

/-- Claim C1: `cpu_ode` is a pure function of `T`, `t` and the power profile,
returning exactly the energy-balance rate `(P(t) − k·(T − T_env)) / C`. -/
theorem c1_cpu_ode_energy_balance (T t : ℝ) (P : ℝ → ℝ) :
    cpu_ode T t P = (P t - k * (T - T_env)) / C :=
  cpu_ode_eq T t P

/-- Claim C2: `analytical_solution` returns `T_ss + (T_initial − T_ss)·exp(−t/τ)`
with `T_ss = T_env + P_constant/k` and `τ = C/k`, for every `t`, `T_initial`
and `P_constant`. -/
theorem c2_analytical_solution_formula (t T_initial P_constant : ℝ) :
    analytical_solution t T_initial P_constant =
      (T_env + P_constant / k) +
        (T_initial - (T_env + P_constant / k)) * Real.exp (-t / (C / k)) :=
  analytical_solution_eq t T_initial P_constant

/-- Claim C5: the process-wide physical parameters satisfy the invariant
`C > 0` and `k > 0`. -/
theorem c5_parameters_positive : (0 : ℝ) < C ∧ (0 : ℝ) < k := by
  constructor <;> norm_num [C, k]

/-- Claim C6: with `C = 50`, `k = 5`, `T_env = 25`, the derived system
characteristics are `τ = 10` s, idle (10 W) steady state `27` °C, full-load
(80 W) steady state `41` °C, and 95% response time `3τ = 30` s. -/
theorem c6_system_characteristics :
    tau = 10 ∧ T_steady_idle = 27 ∧ T_steady_load = 41 ∧ 3 * tau = 30 := by
  refine ⟨?_, ?_, ?_, ?_⟩ <;> norm_num [tau, T_steady_idle, T_steady_load, C, k, T_env, power_idle]

/-- Claim C3 counterexample: on the inverted span `(10, 5)`, `solve_scenario`
does not raise any error; it returns a complete pair of 500-element arrays. -/
theorem c3_counterexample_inverted_span :
    (solve_scenario power_idle (10, 5) "Idle").isSome = true ∧
    (solve_scenario power_idle (10, 5) "Idle").map
        (fun p => (p.1.length, p.2.length)) = some (500, 500) := by
  refine ⟨rfl, ?_⟩
  show some ((linspace 10 5 500).length,
      (odeint (fun y s => cpu_ode y s power_idle) T0 (linspace 10 5 500)).length) =
    some (500, 500)
  rw [linspace_length, odeint_length, linspace_length]

/-- Claim C3 (amended): `solve_scenario` performs no input validation and never
raises: for every power profile, time span (inverted or not) and label it
returns `some` pair of arrays of 500 points each; the source defines no
`IntegrationError` and has no `n_samples` parameter. -/
theorem c3_amended_no_validation (power_func : ℝ → ℝ) (t_span : ℝ × ℝ)
    (label : String) :
    (solve_scenario power_func t_span label).isSome = true ∧
    (solve_scenario power_func t_span label).map
        (fun p => (p.1.length, p.2.length)) = some (500, 500) := by
  refine ⟨rfl, ?_⟩
  show some ((linspace t_span.1 t_span.2 500).length,
      (odeint (fun y s => cpu_ode y s power_func) T0
        (linspace t_span.1 t_span.2 500)).length) = some (500, 500)
  rw [linspace_length, odeint_length, linspace_length]

/-- Claim C4: for every power profile, label, and valid span `t0 < t1`, the
trajectory has 500 sample times evenly spaced over `[t0, t1]`, inclusive of
both endpoints, strictly increasing, and its first point is `(t0, T0)` with
`T0` the module initial temperature. -/
theorem c4_trajectory_grid (power_func : ℝ → ℝ) (t0 t1 : ℝ) (label : String)
    (h : t0 < t1) :
    ∃ ts Ts, solve_scenario power_func (t0, t1) label = some (ts, Ts) ∧
      ts.length = 500 ∧ Ts.length = 500 ∧
      (∀ i : ℕ, i < 500 → ts[i]? = some (t0 + (i : ℝ) * ((t1 - t0) / 499))) ∧
      ts.head? = some t0 ∧ ts.getLast? = some t1 ∧
      List.Pairwise (· < ·) ts ∧ Ts.head? = some T0 := by
  refine ⟨linspace t0 t1 500,
    odeint (fun y s => cpu_ode y s power_func) T0 (linspace t0 t1 500),
    rfl, linspace_length t0 t1 500, ?_, ?_, linspace_head t0 t1 500 (by norm_num),
    linspace_getLast t0 t1 500 (by norm_num), linspace_pairwise t0 t1 500 h, ?_⟩
  · rw [odeint_length, linspace_length]
  · intro i hi
    rw [linspace_getElem t0 t1 500 i hi]
    norm_num
  · refine odeint_head _ T0 _ ?_
    intro hnil
    have := linspace_length t0 t1 500
    rw [hnil] at this
    simp at this

/-- Witness for claim C4: the idle profile on the span `(0, 60)`. -/
theorem c4_trajectory_grid_witness :
    (0 : ℝ) < 60 ∧
    (∃ ts Ts, solve_scenario power_idle (0, 60) "" = some (ts, Ts) ∧
      ts.length = 500 ∧ Ts.length = 500 ∧
      (∀ i : ℕ, i < 500 →
        ts[i]? = some ((0 : ℝ) + (i : ℝ) * (((60 : ℝ) - 0) / 499))) ∧
      ts.head? = some 0 ∧ ts.getLast? = some 60 ∧
      List.Pairwise (· < ·) ts ∧ Ts.head? = some T0) :=
  ⟨by norm_num, c4_trajectory_grid power_idle 0 60 "" (by norm_num)⟩

/-- Claim C8: `power_periodic t = 45 + 35·sin(2π·t/20)` for every `t`, and its
value always lies in `[10, 80]`, hence is non-negative. -/
theorem c8_power_periodic_range (t : ℝ) :
    power_periodic t = 45 + 35 * Real.sin (2 * Real.pi * t / 20) ∧
    10 ≤ power_periodic t ∧ power_periodic t ≤ 80 := by
  have hsin1 : Real.sin (2 * Real.pi / 20 * t) ≤ 1 := Real.sin_le_one _
  have hsin2 : -1 ≤ Real.sin (2 * Real.pi / 20 * t) := Real.neg_one_le_sin _
  refine ⟨?_, ?_, ?_⟩
  · show 45 + 35 * Real.sin (2 * Real.pi / 20 * t) =
      45 + 35 * Real.sin (2 * Real.pi * t / 20)
    have harg : 2 * Real.pi / 20 * t = 2 * Real.pi * t / 20 := by ring
    rw [harg]
  · show 10 ≤ 45 + 35 * Real.sin (2 * Real.pi / 20 * t)
    linarith
  · show 45 + 35 * Real.sin (2 * Real.pi / 20 * t) ≤ 80
    linarith

/-- Claim C9: `T_env + P/k` is an equilibrium of the model: `cpu_ode` vanishes
there under the constant profile `P`, and the analytical solution started at
`T_env + P/k` stays at `T_env + P/k` for every `t`. -/
theorem c9_steady_state_equilibrium (P t : ℝ) :
    cpu_ode (T_env + P / k) t (fun _ => P) = 0 ∧
    analytical_solution t (T_env + P / k) P = T_env + P / k := by
  constructor
  · rw [cpu_ode_eq]
    simp only [k, C, T_env]
    ring
  · rw [analytical_solution_eq]
    ring

/-- Claim C10: the `label` argument has no effect on the result of
`solve_scenario`: any two labels give identical time and temperature arrays. -/
theorem c10_label_no_effect (power_func : ℝ → ℝ) (t_span : ℝ × ℝ)
    (l1 l2 : String) :
    solve_scenario power_func t_span l1 = solve_scenario power_func t_span l2 :=
  rfl

end CpuTempModel
